import Mathlib

/-!
Verification development for the `snowberry` crate (`src/lib.rs`), a
Snowflake-style 64-bit ID generator.

Embedding conventions:
* All `i64` quantities the generator manipulates are non-negative in every
  reachable state, so they are modelled as `Nat`.  The returned `i64` ID is
  modelled by its unsigned 64-bit pattern, i.e. the or-expression reduced
  `% 2 ^ 64` (the one place a left shift could overflow the 64-bit word).
* A `SystemTime` argument is modelled by the non-negative Unix-millisecond
  value that `to_unix_time` extracts from it.
* A Rust `assert!` failure is the explicit `HarvestResult.panic` outcome,
  and the asserting constructor `Snowberry::new` returns `Option`.
* `wait_for_next_harvest` loops on the real clock; it is modelled by its
  postcondition: it returns a time `now` with `last_harvested_at < now`.
-/

/-- `pub const SEED_BITS: i64 = 5;` -/
def SEED_BITS : Nat := 5

/-- `pub const SOIL_BITS: i64 = 5;` -/
def SOIL_BITS : Nat := 5

/-- `pub const HARVESTED_COUNT_BITS: i64 = 12;` -/
def HARVESTED_COUNT_BITS : Nat := 12

/-- `const MAX_SEED: i64 = -1 ^ (-1 << SEED_BITS);`
On `i64`, `-1 ^ (-1 << n)` is the low-bits mask `2 ^ n - 1`. -/
def MAX_SEED : Nat := 2 ^ SEED_BITS - 1

/-- `const MAX_SOIL: i64 = -1 ^ (-1 << SOIL_BITS);` -/
def MAX_SOIL : Nat := 2 ^ SOIL_BITS - 1

/-- `const SOIL_SHIFT: i64 = HARVESTED_COUNT_BITS;` -/
def SOIL_SHIFT : Nat := HARVESTED_COUNT_BITS

/-- `const SEED_SHIFT: i64 = HARVESTED_COUNT_BITS + SEED_BITS;` -/
def SEED_SHIFT : Nat := HARVESTED_COUNT_BITS + SEED_BITS

/-- `const UNIX_TIME_SHIFT: i64 = HARVESTED_COUNT_BITS + SOIL_BITS + SEED_BITS;` -/
def UNIX_TIME_SHIFT : Nat := HARVESTED_COUNT_BITS + SOIL_BITS + SEED_BITS

/-- `const HARVESTED_COUNT_MASK: i64 = -1 ^ (-1 << HARVESTED_COUNT_BITS);` -/
def HARVESTED_COUNT_MASK : Nat := 2 ^ HARVESTED_COUNT_BITS - 1

/-- `pub struct Snowberry { seed, soil, harvested_count, last_harvested_at: i64 }`.
`seed` and `soil` are stored pre-shifted, exactly as in the source. -/
structure Snowberry where
  seed : Nat
  soil : Nat
  harvested_count : Nat
  last_harvested_at : Nat
deriving DecidableEq, Repr

/-- Outcome of `harvest_from_time`: `Ok(id)` / `Err(msg)` with the mutated
receiver made explicit, or a failed `assert!` (process abort). -/
inductive HarvestResult where
  | ok (id : Nat) (state : Snowberry)
  | err (msg : String) (state : Snowberry)
  | panic
deriving DecidableEq, Repr

/-- `Snowberry::new(seed, soil)`.  The two `assert!`s become the `Option`
guard; on success the identity fields are stored pre-shifted. -/
def Snowberry.new (seed soil : Int) : Option Snowberry :=
  if 0 ≤ seed ∧ seed ≤ (MAX_SEED : Int) ∧ 0 ≤ soil ∧ soil ≤ (MAX_SOIL : Int) then
    some { seed := seed.toNat <<< SEED_SHIFT
           soil := soil.toNat <<< SOIL_SHIFT
           harvested_count := 0
           last_harvested_at := 0 }
  else
    none

/-- `Snowberry::harvest_from_time(&mut self, time)` with `time` already
converted to Unix milliseconds.  Mirrors the source line by line:
the leading `assert!(self.last_harvested_at <= unix_time)`, the
same-millisecond increment-and-mask with early `Err` return (which skips
the `last_harvested_at` update), the fresh-millisecond reset, and the
final or-assembly of the ID. -/
def harvest_from_time (self : Snowberry) (unix_time : Nat) : HarvestResult :=
  if self.last_harvested_at ≤ unix_time then
    if unix_time = self.last_harvested_at then
      let c := (self.harvested_count + 1) &&& HARVESTED_COUNT_MASK
      if c = 0 then
        HarvestResult.err "snowberry has harvested all" { self with harvested_count := c }
      else
        HarvestResult.ok
          (((unix_time <<< UNIX_TIME_SHIFT) ||| self.seed ||| self.soil ||| c) % 2 ^ 64)
          { self with harvested_count := c, last_harvested_at := unix_time }
    else
      HarvestResult.ok
        (((unix_time <<< UNIX_TIME_SHIFT) ||| self.seed ||| self.soil ||| 0) % 2 ^ 64)
        { self with harvested_count := 0, last_harvested_at := unix_time }
  else
    HarvestResult.panic

/-- `Snowberry::harvest(&mut self)`, given the time `now` that
`wait_for_next_harvest` returned.  The wait loop's postcondition
`self.last_harvested_at < now` is a hypothesis of the theorems below. -/
def harvest (self : Snowberry) (now : Nat) : HarvestResult :=
  harvest_from_time self now

/-- Run `harvest_from_time` `n` times at one fixed timestamp, stopping (with
`none`) at the first outcome that is not `Ok`. -/
def iterateHarvest (s : Snowberry) (t : Nat) : Nat → Option Snowberry
  | 0 => some s
  | n + 1 =>
    match harvest_from_time s t with
    | HarvestResult.ok _ s' => iterateHarvest s' t n
    | _ => none

/-- Run `harvest_from_time` once per timestamp in the list, stopping (with
`none`) at the first outcome that is not `Ok`; collects the returned IDs. -/
def runOk (s : Snowberry) : List Nat → Option (Snowberry × List Nat)
  | [] => some (s, [])
  | t :: ts =>
    match harvest_from_time s t with
    | HarvestResult.ok id s' => (runOk s' ts).map (fun r => (r.1, id :: r.2))
    | _ => none

/-- The mutable states a generator can pass through: closure of
`harvest_from_time` transitions (both `Ok` and `Err` mutate the receiver). -/
inductive Reaches : Snowberry → Snowberry → Prop where
  | refl (s : Snowberry) : Reaches s s
  | ok {s₁ s₂ s₃ : Snowberry} {t id : Nat} :
      Reaches s₁ s₂ → harvest_from_time s₂ t = HarvestResult.ok id s₃ → Reaches s₁ s₃
  | err {s₁ s₂ s₃ : Snowberry} {t : Nat} {m : String} :
      Reaches s₁ s₂ → harvest_from_time s₂ t = HarvestResult.err m s₃ → Reaches s₁ s₃

/-- Bounds that hold in every state reachable from a constructed generator:
the identity fields carry only their own (pre-shifted) bit ranges, and the
counter never exceeds the mask. -/
def WF (s : Snowberry) : Prop :=
  (∃ p, p ≤ MAX_SEED ∧ s.seed = p <<< SEED_SHIFT) ∧
    (∃ q, q ≤ MAX_SOIL ∧ s.soil = q <<< SOIL_SHIFT) ∧
    s.harvested_count ≤ HARVESTED_COUNT_MASK

/-- The ID that the most recent successful mint from state `s` returned:
the encoding of `s`'s own fields.  Used to chain strict monotonicity
through a run of mints. -/
def lastId (s : Snowberry) : Nat :=
  ((s.last_harvested_at <<< UNIX_TIME_SHIFT) ||| s.seed ||| s.soil
    ||| s.harvested_count) % 2 ^ 64

theorem new_some_inv {p q : Int} {s₀ : Snowberry} (h : Snowberry.new p q = some s₀) :
    0 ≤ p ∧ p ≤ (MAX_SEED : Int) ∧ 0 ≤ q ∧ q ≤ (MAX_SOIL : Int) ∧
      s₀ = ⟨p.toNat <<< SEED_SHIFT, q.toNat <<< SOIL_SHIFT, 0, 0⟩ := by
  unfold Snowberry.new at h
  split at h
  · rename_i hcond
    exact ⟨hcond.1, hcond.2.1, hcond.2.2.1, hcond.2.2.2, (Option.some_inj.mp h).symm⟩
  · exact absurd h (by simp)

theorem harvest_ok_inv {s : Snowberry} {t id : Nat} {s' : Snowberry}
    (h : harvest_from_time s t = HarvestResult.ok id s') :
    s'.seed = s.seed ∧ s'.soil = s.soil ∧ s'.last_harvested_at = t ∧
      s.last_harvested_at ≤ t ∧
      s'.harvested_count =
        (if t = s.last_harvested_at then (s.harvested_count + 1) &&& HARVESTED_COUNT_MASK
         else 0) ∧
      (t = s.last_harvested_at → (s.harvested_count + 1) &&& HARVESTED_COUNT_MASK ≠ 0) ∧
      id = ((t <<< UNIX_TIME_SHIFT) ||| s.seed ||| s.soil ||| s'.harvested_count) % 2 ^ 64 := by
  simp only [harvest_from_time] at h
  split at h
  · rename_i hle
    split at h
    · rename_i heq
      split at h
      · exact absurd h (by simp)
      · rename_i hc
        cases h
        exact ⟨rfl, rfl, rfl, hle, by simp [heq], fun _ => hc, by simp⟩
    · rename_i hne
      cases h
      exact ⟨rfl, rfl, rfl, hle, by simp [hne], fun hh => absurd hh hne, by simp⟩
  · exact absurd h (by simp)

theorem harvest_err_inv {s : Snowberry} {t : Nat} {m : String} {s' : Snowberry}
    (h : harvest_from_time s t = HarvestResult.err m s') :
    m = "snowberry has harvested all" ∧
      s' = { s with harvested_count := 0 } ∧
      t = s.last_harvested_at ∧
      (s.harvested_count + 1) &&& HARVESTED_COUNT_MASK = 0 := by
  simp only [harvest_from_time] at h
  split at h
  · split at h
    · rename_i heq
      split at h
      · rename_i hc
        cases h
        exact ⟨rfl, by rw [hc], heq, hc⟩
      · exact absurd h (by simp)
    · exact absurd h (by simp)
  · exact absurd h (by simp)

theorem lor4_eq_add {t p q c : Nat} (hp : p < 32) (hq : q < 32) (hc : c < 4096) :
    t * 4194304 ||| p * 131072 ||| q * 4096 ||| c
      = t * 4194304 + p * 131072 + q * 4096 + c := by
  have e22 : (4194304 : Nat) = 2 ^ 22 := by norm_num
  have e17 : (131072 : Nat) = 2 ^ 17 := by norm_num
  have e12 : (4096 : Nat) = 2 ^ 12 := by norm_num
  have h1 : t * 4194304 ||| p * 131072 = t * 4194304 + p * 131072 := by
    rw [Nat.mul_comm t, e22]
    exact (Nat.mul_add_lt_is_or (by rw [← e22]; omega) t).symm
  have h2 : t * 4194304 + p * 131072 ||| q * 4096 = t * 4194304 + p * 131072 + q * 4096 := by
    have hfac : t * 4194304 + p * 131072 = 2 ^ 17 * (t * 32 + p) := by rw [← e17]; ring
    rw [hfac]
    exact (Nat.mul_add_lt_is_or (by rw [← e17]; omega) (t * 32 + p)).symm
  have h3 : t * 4194304 + p * 131072 + q * 4096 ||| c
      = t * 4194304 + p * 131072 + q * 4096 + c := by
    have hfac : t * 4194304 + p * 131072 + q * 4096 = 2 ^ 12 * (t * 1024 + p * 32 + q) := by
      rw [← e12]; ring
    rw [hfac]
    exact (Nat.mul_add_lt_is_or (by rw [← e12]; omega) (t * 1024 + p * 32 + q)).symm
  rw [h1, h2, h3]

theorem encode_eq_add {t p q c : Nat} (hp : p ≤ MAX_SEED) (hq : q ≤ MAX_SOIL)
    (hc : c ≤ HARVESTED_COUNT_MASK) :
    (t <<< UNIX_TIME_SHIFT) ||| (p <<< SEED_SHIFT) ||| (q <<< SOIL_SHIFT) ||| c
      = t * 4194304 + p * 131072 + q * 4096 + c := by
  have hp' : p < 32 := by
    have : MAX_SEED = 31 := by decide
    omega
  have hq' : q < 32 := by
    have : MAX_SOIL = 31 := by decide
    omega
  have hc' : c < 4096 := by
    have : HARVESTED_COUNT_MASK = 4095 := by decide
    omega
  rw [Nat.shiftLeft_eq, Nat.shiftLeft_eq, Nat.shiftLeft_eq,
    (by decide : (2 : Nat) ^ UNIX_TIME_SHIFT = 4194304),
    (by decide : (2 : Nat) ^ SEED_SHIFT = 131072),
    (by decide : (2 : Nat) ^ SOIL_SHIFT = 4096)]
  exact lor4_eq_add hp' hq' hc'

theorem and_mask_eq_mod (x : Nat) : x &&& HARVESTED_COUNT_MASK = x % 4096 := by
  simp only [HARVESTED_COUNT_MASK, HARVESTED_COUNT_BITS]
  rw [Nat.and_pow_two_sub_one_eq_mod]

theorem extract_count (M : Nat) : (M % 2 ^ 64) &&& HARVESTED_COUNT_MASK = M % 4096 := by
  rw [and_mask_eq_mod,
    Nat.mod_mod_of_dvd _ (by norm_num : (4096 : Nat) ∣ 2 ^ 64)]

theorem extract_soil (M : Nat) : ((M % 2 ^ 64) >>> SOIL_SHIFT) &&& MAX_SOIL = M / 4096 % 32 := by
  simp only [SOIL_SHIFT, MAX_SOIL, SOIL_BITS, HARVESTED_COUNT_BITS]
  rw [Nat.shiftRight_eq_div_pow, Nat.and_pow_two_sub_one_eq_mod,
    (by norm_num : (2 : Nat) ^ 64 = 2 ^ 12 * 2 ^ 52), Nat.mod_mul_right_div_self,
    Nat.mod_mod_of_dvd _ (by norm_num : (2 : Nat) ^ 5 ∣ 2 ^ 52)]
  norm_num

theorem extract_seed (M : Nat) : ((M % 2 ^ 64) >>> SEED_SHIFT) &&& MAX_SEED = M / 131072 % 32 := by
  simp only [SEED_SHIFT, MAX_SEED, SEED_BITS, HARVESTED_COUNT_BITS]
  rw [Nat.shiftRight_eq_div_pow, Nat.and_pow_two_sub_one_eq_mod,
    (by norm_num : (2 : Nat) ^ 64 = 2 ^ 17 * 2 ^ 47), Nat.mod_mul_right_div_self,
    Nat.mod_mod_of_dvd _ (by norm_num : (2 : Nat) ^ 5 ∣ 2 ^ 47)]
  norm_num

theorem extract_time {M : Nat} (h : M < 2 ^ 64) :
    (M % 2 ^ 64) >>> UNIX_TIME_SHIFT = M / 4194304 := by
  rw [Nat.mod_eq_of_lt h]
  simp only [UNIX_TIME_SHIFT, SEED_BITS, SOIL_BITS, HARVESTED_COUNT_BITS]
  rw [Nat.shiftRight_eq_div_pow]

theorem wf_new {p q : Int} {s₀ : Snowberry} (h : Snowberry.new p q = some s₀) : WF s₀ := by
  obtain ⟨hp0, hp1, hq0, hq1, rfl⟩ := new_some_inv h
  refine ⟨⟨p.toNat, ?_, rfl⟩, ⟨q.toNat, ?_, rfl⟩, ?_⟩
  · omega
  · omega
  · exact Nat.zero_le _

theorem wf_step_ok {s : Snowberry} {t id : Nat} {s' : Snowberry} (hw : WF s)
    (h : harvest_from_time s t = HarvestResult.ok id s') : WF s' := by
  obtain ⟨hseed, hsoil, -⟩ := hw
  obtain ⟨h1, h2, -, -, h5, -, -⟩ := harvest_ok_inv h
  refine ⟨h1 ▸ hseed, h2 ▸ hsoil, ?_⟩
  rw [h5]
  split
  · rw [and_mask_eq_mod]
    have : HARVESTED_COUNT_MASK = 4095 := by decide
    omega
  · exact Nat.zero_le _

theorem wf_step_err {s : Snowberry} {t : Nat} {m : String} {s' : Snowberry} (hw : WF s)
    (h : harvest_from_time s t = HarvestResult.err m s') : WF s' := by
  obtain ⟨hseed, hsoil, -⟩ := hw
  obtain ⟨-, rfl, -, -⟩ := harvest_err_inv h
  exact ⟨hseed, hsoil, Nat.zero_le _⟩

theorem Reaches.wf {s₀ s : Snowberry} (h : Reaches s₀ s) (hw : WF s₀) : WF s := by
  induction h with
  | refl => exact hw
  | ok _ hstep ih => exact wf_step_ok ih hstep
  | err _ hstep ih => exact wf_step_err ih hstep

theorem Reaches.seed_soil {s₀ s : Snowberry} (h : Reaches s₀ s) :
    s.seed = s₀.seed ∧ s.soil = s₀.soil := by
  induction h with
  | refl => exact ⟨rfl, rfl⟩
  | ok _ hstep ih =>
    obtain ⟨h1, h2, -⟩ := harvest_ok_inv hstep
    exact ⟨h1.trans ih.1, h2.trans ih.2⟩
  | err _ hstep ih =>
    obtain ⟨-, rfl, -, -⟩ := harvest_err_inv hstep
    exact ih

theorem harvest_panic_iff (s : Snowberry) (t : Nat) :
    harvest_from_time s t = HarvestResult.panic ↔ t < s.last_harvested_at := by
  simp only [harvest_from_time]
  split
  · rename_i hle
    constructor
    · intro h
      split at h <;> [skip; exact absurd h (by simp)]
      split at h <;> exact absurd h (by simp)
    · intro h
      exact absurd hle (by omega)
  · rename_i hgt
    simp only [true_iff]
    omega

theorem harvest_fresh_ms {s : Snowberry} {t : Nat} (hlt : s.last_harvested_at < t) :
    harvest_from_time s t = HarvestResult.ok
      (((t <<< UNIX_TIME_SHIFT) ||| s.seed ||| s.soil ||| 0) % 2 ^ 64)
      { s with harvested_count := 0, last_harvested_at := t } := by
  simp only [harvest_from_time]
  rw [if_pos (Nat.le_of_lt hlt), if_neg (by omega)]

theorem harvest_same_ms {s : Snowberry} {t : Nat} (heq : t = s.last_harvested_at)
    (hc : (s.harvested_count + 1) &&& HARVESTED_COUNT_MASK ≠ 0) :
    harvest_from_time s t = HarvestResult.ok
      (((t <<< UNIX_TIME_SHIFT) ||| s.seed ||| s.soil
          ||| ((s.harvested_count + 1) &&& HARVESTED_COUNT_MASK)) % 2 ^ 64)
      { s with harvested_count := (s.harvested_count + 1) &&& HARVESTED_COUNT_MASK,
               last_harvested_at := t } := by
  simp only [harvest_from_time]
  rw [if_pos (le_of_eq heq.symm), if_pos heq, if_neg hc]

theorem harvest_exhausted {s : Snowberry} {t : Nat} (heq : t = s.last_harvested_at)
    (hc : (s.harvested_count + 1) &&& HARVESTED_COUNT_MASK = 0) :
    harvest_from_time s t = HarvestResult.err "snowberry has harvested all"
      { s with harvested_count := 0 } := by
  simp only [harvest_from_time]
  rw [if_pos (le_of_eq heq.symm), if_pos heq, if_pos hc, hc]

/-- C7: construction fails exactly when `primary_id ∉ [0, 2^P - 1]` or
`secondary_id ∉ [0, 2^S - 1]`; on success the generator starts with
`sequence = 0`, `last_emit_time_ms = 0`, and the identity fields stored
pre-shifted into their final bit positions. -/
theorem C7_construction (p q : Int) :
    (Snowberry.new p q = none ↔
        (p < 0 ∨ (MAX_SEED : Int) < p ∨ q < 0 ∨ (MAX_SOIL : Int) < q)) ∧
      (0 ≤ p → p ≤ (MAX_SEED : Int) → 0 ≤ q → q ≤ (MAX_SOIL : Int) →
        Snowberry.new p q =
          some ⟨p.toNat <<< SEED_SHIFT, q.toNat <<< SOIL_SHIFT, 0, 0⟩) := by
  constructor
  · constructor
    · intro hnone
      unfold Snowberry.new at hnone
      split at hnone
      · exact absurd hnone (by simp)
      · rename_i h
        omega
    · intro hout
      unfold Snowberry.new
      rw [if_neg (by omega)]
  · intro h1 h2 h3 h4
    unfold Snowberry.new
    rw [if_pos ⟨h1, h2, h3, h4⟩]

theorem C7_construction_witness :
    Snowberry.new 32 0 = none ∧
      Snowberry.new 30 13 =
        some ⟨(30 : Int).toNat <<< SEED_SHIFT, (13 : Int).toNat <<< SOIL_SHIFT, 0, 0⟩ :=
  ⟨(C7_construction 32 0).1.2 (by norm_num [MAX_SEED, SEED_BITS]),
   (C7_construction 30 13).2 (by norm_num) (by norm_num [MAX_SEED, SEED_BITS])
     (by norm_num) (by norm_num [MAX_SOIL, SOIL_BITS])⟩

/-- C8: calling the explicit-timestamp mint with a timestamp strictly
earlier than the recorded last-emission millisecond trips the
`assert!(self.last_harvested_at <= unix_time)` and aborts (panic), for
every generator state, rather than returning an error value. -/
theorem C8_stale_timestamp_panics (s : Snowberry) (t : Nat)
    (h : t < s.last_harvested_at) :
    harvest_from_time s t = HarvestResult.panic :=
  (harvest_panic_iff s t).mpr h

theorem C8_stale_timestamp_panics_witness :
    (0 : Nat) < (Snowberry.mk 0 0 0 5).last_harvested_at ∧
      harvest_from_time ⟨0, 0, 0, 5⟩ 0 = HarvestResult.panic :=
  ⟨by decide, C8_stale_timestamp_panics ⟨0, 0, 0, 5⟩ 0 (by decide)⟩

/-- C10: on a freshly constructed generator the first mint at timestamp 0
(the Unix epoch) returns `Ok` with embedded sequence 1, not 0, because the
never-emitted sentinel `last_harvested_at = 0` makes timestamp 0 look like
a same-millisecond repeat. -/
theorem C10_epoch_first_mint (p q : Int) (s₀ : Snowberry)
    (hnew : Snowberry.new p q = some s₀) :
    ∃ id s', harvest_from_time s₀ 0 = HarvestResult.ok id s' ∧
      s'.harvested_count = 1 ∧ id &&& HARVESTED_COUNT_MASK = 1 := by
  obtain ⟨hp0, hp1, hq0, hq1, rfl⟩ := new_some_inv hnew
  have h31s : MAX_SEED = 31 := by decide
  have h31o : MAX_SOIL = 31 := by decide
  refine ⟨((0 <<< UNIX_TIME_SHIFT) ||| (p.toNat <<< SEED_SHIFT) ||| (q.toNat <<< SOIL_SHIFT)
      ||| 1) % 2 ^ 64,
    ⟨p.toNat <<< SEED_SHIFT, q.toNat <<< SOIL_SHIFT, 1, 0⟩, ?_, rfl, ?_⟩
  · have hstep := harvest_same_ms
      (s := ⟨p.toNat <<< SEED_SHIFT, q.toNat <<< SOIL_SHIFT, 0, 0⟩) (t := 0) rfl
      (by show ((0 : Nat) + 1) &&& HARVESTED_COUNT_MASK ≠ 0; decide)
    have hc1 : ((Snowberry.mk (p.toNat <<< SEED_SHIFT) (q.toNat <<< SOIL_SHIFT) 0
        0).harvested_count + 1) &&& HARVESTED_COUNT_MASK = 1 := by
      show ((0 : Nat) + 1) &&& HARVESTED_COUNT_MASK = 1
      decide
    rw [hc1] at hstep
    exact hstep
  · rw [encode_eq_add (by omega) (by omega) (by decide), extract_count]
    omega

theorem C10_epoch_first_mint_witness :
    Snowberry.new 0 0 = some ⟨0, 0, 0, 0⟩ ∧
      ∃ id s', harvest_from_time ⟨0, 0, 0, 0⟩ 0 = HarvestResult.ok id s' ∧
        s'.harvested_count = 1 ∧ id &&& HARVESTED_COUNT_MASK = 1 :=
  ⟨by decide, C10_epoch_first_mint 0 0 ⟨0, 0, 0, 0⟩ (by decide)⟩

/-- C1: every successful mint returns the 64-bit value
`(timestamp << (P+S+C)) | (primary << (S+C)) | (secondary << C) | sequence`
(both sides taken as 64-bit words, i.e. mod `2 ^ 64`), where `sequence` is
the counter value after the call and `primary`/`secondary` are the values
supplied at construction. -/
theorem C1_encoding (p q : Int) (s₀ s s' : Snowberry) (t id : Nat)
    (hnew : Snowberry.new p q = some s₀) (hre : Reaches s₀ s)
    (hok : harvest_from_time s t = HarvestResult.ok id s') :
    id = ((t <<< (SEED_BITS + SOIL_BITS + HARVESTED_COUNT_BITS))
        ||| (p.toNat <<< (SOIL_BITS + HARVESTED_COUNT_BITS))
        ||| (q.toNat <<< HARVESTED_COUNT_BITS)
        ||| s'.harvested_count) % 2 ^ 64 := by
  obtain ⟨hseed, hsoil⟩ := Reaches.seed_soil hre
  obtain ⟨-, -, -, -, rfl⟩ := new_some_inv hnew
  obtain ⟨-, -, -, -, -, -, hid⟩ := harvest_ok_inv hok
  rw [hid, hseed, hsoil]
  rfl

theorem C1_encoding_witness :
    Snowberry.new 30 13 = some ⟨(30 : Int).toNat <<< SEED_SHIFT, (13 : Int).toNat <<< SOIL_SHIFT, 0, 0⟩ ∧
      harvest_from_time ⟨(30 : Int).toNat <<< SEED_SHIFT, (13 : Int).toNat <<< SOIL_SHIFT, 0, 0⟩ 1
        = HarvestResult.ok 8179712
            ⟨(30 : Int).toNat <<< SEED_SHIFT, (13 : Int).toNat <<< SOIL_SHIFT, 0, 1⟩ ∧
      8179712 = ((1 <<< (SEED_BITS + SOIL_BITS + HARVESTED_COUNT_BITS))
        ||| ((30 : Int).toNat <<< (SOIL_BITS + HARVESTED_COUNT_BITS))
        ||| ((13 : Int).toNat <<< HARVESTED_COUNT_BITS)
        ||| (Snowberry.mk ((30 : Int).toNat <<< SEED_SHIFT) ((13 : Int).toNat <<< SOIL_SHIFT) 0 1).harvested_count) % 2 ^ 64 :=
  ⟨by decide, by decide,
   C1_encoding 30 13 ⟨(30 : Int).toNat <<< SEED_SHIFT, (13 : Int).toNat <<< SOIL_SHIFT, 0, 0⟩
     ⟨(30 : Int).toNat <<< SEED_SHIFT, (13 : Int).toNat <<< SOIL_SHIFT, 0, 0⟩
     ⟨(30 : Int).toNat <<< SEED_SHIFT, (13 : Int).toNat <<< SOIL_SHIFT, 0, 1⟩
     1 8179712 (by decide) (Reaches.refl _) (by decide)⟩

/-- C5: from any reachable generator state, a mint at a timestamp strictly
beyond the recorded last-emission millisecond always succeeds (the
exhaustion branch is unreachable) and both the new counter and the
embedded sequence field of the ID are 0; in particular the auto-waiting
`harvest`, which only ever supplies such a fresh timestamp, cannot fail. -/
theorem C5_fresh_ms_never_fails (p q : Int) (s₀ s : Snowberry) (t : Nat)
    (hnew : Snowberry.new p q = some s₀) (hre : Reaches s₀ s)
    (hfresh : s.last_harvested_at < t) :
    harvest s t = HarvestResult.ok
        (((t <<< UNIX_TIME_SHIFT) ||| s.seed ||| s.soil ||| 0) % 2 ^ 64)
        { s with harvested_count := 0, last_harvested_at := t } ∧
      (((t <<< UNIX_TIME_SHIFT) ||| s.seed ||| s.soil ||| 0) % 2 ^ 64)
          &&& HARVESTED_COUNT_MASK = 0 := by
  refine ⟨harvest_fresh_ms hfresh, ?_⟩
  obtain ⟨⟨p', hp', hseed⟩, ⟨q', hq', hsoil⟩, -⟩ := Reaches.wf hre (wf_new hnew)
  rw [hseed, hsoil, encode_eq_add hp' hq' (by decide), extract_count]
  omega

theorem C5_fresh_ms_never_fails_witness :
    Snowberry.new 0 0 = some ⟨0, 0, 0, 0⟩ ∧
      (Snowberry.mk 0 0 0 0).last_harvested_at < 7 ∧
      harvest ⟨0, 0, 0, 0⟩ 7 = HarvestResult.ok
          (((7 <<< UNIX_TIME_SHIFT) ||| 0 ||| 0 ||| 0) % 2 ^ 64) ⟨0, 0, 0, 7⟩ ∧
      (((7 <<< UNIX_TIME_SHIFT) ||| 0 ||| 0 ||| 0) % 2 ^ 64) &&& HARVESTED_COUNT_MASK = 0 :=
  ⟨by decide, by decide,
   (C5_fresh_ms_never_fails 0 0 ⟨0, 0, 0, 0⟩ ⟨0, 0, 0, 0⟩ 7 (by decide)
     (Reaches.refl _) (by decide)).1,
   (C5_fresh_ms_never_fails 0 0 ⟨0, 0, 0, 0⟩ ⟨0, 0, 0, 0⟩ 7 (by decide)
     (Reaches.refl _) (by decide)).2⟩

/-- C6: decoding an emitted ID with the inverse shifts and masks of the bit
layout recovers exactly the construction-time `primary_id` and
`secondary_id` and the timestamp supplied to the mint call, provided the
timestamp fits in the `64 - P - S - C`-bit timestamp field. -/
theorem C6_round_trip (p q : Int) (s₀ s s' : Snowberry) (t id : Nat)
    (hnew : Snowberry.new p q = some s₀) (hre : Reaches s₀ s)
    (hok : harvest_from_time s t = HarvestResult.ok id s')
    (ht : t < 2 ^ (64 - SEED_BITS - SOIL_BITS - HARVESTED_COUNT_BITS)) :
    id >>> UNIX_TIME_SHIFT = t ∧
      (id >>> SEED_SHIFT) &&& MAX_SEED = p.toNat ∧
      (id >>> SOIL_SHIFT) &&& MAX_SOIL = q.toNat := by
  have hwf' := wf_step_ok (Reaches.wf hre (wf_new hnew)) hok
  obtain ⟨hp0, hp1, hq0, hq1, rfl⟩ := new_some_inv hnew
  obtain ⟨hseed, hsoil⟩ := Reaches.seed_soil hre
  have hseed' : s.seed = p.toNat <<< SEED_SHIFT := hseed
  have hsoil' : s.soil = q.toNat <<< SOIL_SHIFT := hsoil
  obtain ⟨-, -, -, -, -, -, hid⟩ := harvest_ok_inv hok
  have h31 : MAX_SEED = 31 := by decide
  have h31' : MAX_SOIL = 31 := by decide
  have hmask : HARVESTED_COUNT_MASK = 4095 := by decide
  have hc : s'.harvested_count ≤ 4095 := by
    have := hwf'.2.2
    omega
  have ht' : t < 4398046511104 := by
    have he : (2 : Nat) ^ (64 - SEED_BITS - SOIL_BITS - HARVESTED_COUNT_BITS)
        = 4398046511104 := by decide
    omega
  have hM : id = (t * 4194304 + p.toNat * 131072 + q.toNat * 4096
      + s'.harvested_count) % 2 ^ 64 := by
    rw [hid, hseed', hsoil', encode_eq_add (by omega) (by omega) (by omega)]
  have h64 : (2 : Nat) ^ 64 = 18446744073709551616 := by norm_num
  refine ⟨?_, ?_, ?_⟩
  · rw [hM, extract_time (by omega)]
    omega
  · rw [hM, extract_seed]
    omega
  · rw [hM, extract_soil]
    omega

theorem C6_round_trip_witness :
    Snowberry.new 30 13
        = some ⟨(30 : Int).toNat <<< SEED_SHIFT, (13 : Int).toNat <<< SOIL_SHIFT, 0, 0⟩ ∧
      harvest_from_time ⟨(30 : Int).toNat <<< SEED_SHIFT, (13 : Int).toNat <<< SOIL_SHIFT, 0, 0⟩ 1
        = HarvestResult.ok 8179712
            ⟨(30 : Int).toNat <<< SEED_SHIFT, (13 : Int).toNat <<< SOIL_SHIFT, 0, 1⟩ ∧
      (1 : Nat) < 2 ^ (64 - SEED_BITS - SOIL_BITS - HARVESTED_COUNT_BITS) ∧
      (8179712 >>> UNIX_TIME_SHIFT = 1 ∧
        (8179712 >>> SEED_SHIFT) &&& MAX_SEED = (30 : Int).toNat ∧
        (8179712 >>> SOIL_SHIFT) &&& MAX_SOIL = (13 : Int).toNat) :=
  ⟨by decide, by decide, by decide,
   C6_round_trip 30 13 ⟨(30 : Int).toNat <<< SEED_SHIFT, (13 : Int).toNat <<< SOIL_SHIFT, 0, 0⟩
     ⟨(30 : Int).toNat <<< SEED_SHIFT, (13 : Int).toNat <<< SOIL_SHIFT, 0, 0⟩
     ⟨(30 : Int).toNat <<< SEED_SHIFT, (13 : Int).toNat <<< SOIL_SHIFT, 0, 1⟩
     1 8179712 (by decide) (Reaches.refl _) (by decide) (by decide)⟩

/-- C9: two generators constructed from distinct in-range
`(primary_id, secondary_id)` pairs never mint the same 64-bit ID at the
same timestamp with the same resulting sequence value. -/
theorem C9_cross_identity (p₁ q₁ p₂ q₂ : Int) (s₁ s₂ r₁ r₂ r₁' r₂' : Snowberry)
    (t id₁ id₂ : Nat)
    (hn₁ : Snowberry.new p₁ q₁ = some s₁) (hn₂ : Snowberry.new p₂ q₂ = some s₂)
    (hne : (p₁, q₁) ≠ (p₂, q₂))
    (hr₁ : Reaches s₁ r₁) (hr₂ : Reaches s₂ r₂)
    (hok₁ : harvest_from_time r₁ t = HarvestResult.ok id₁ r₁')
    (hok₂ : harvest_from_time r₂ t = HarvestResult.ok id₂ r₂')
    (hseq : r₁'.harvested_count = r₂'.harvested_count) :
    id₁ ≠ id₂ := by
  intro heq
  have hwf₁ := wf_step_ok (Reaches.wf hr₁ (wf_new hn₁)) hok₁
  have hwf₂ := wf_step_ok (Reaches.wf hr₂ (wf_new hn₂)) hok₂
  obtain ⟨hp0₁, hp1₁, hq0₁, hq1₁, rfl⟩ := new_some_inv hn₁
  obtain ⟨hp0₂, hp1₂, hq0₂, hq1₂, rfl⟩ := new_some_inv hn₂
  obtain ⟨hseed₁, hsoil₁⟩ := Reaches.seed_soil hr₁
  obtain ⟨hseed₂, hsoil₂⟩ := Reaches.seed_soil hr₂
  have hseed₁' : r₁.seed = p₁.toNat <<< SEED_SHIFT := hseed₁
  have hsoil₁' : r₁.soil = q₁.toNat <<< SOIL_SHIFT := hsoil₁
  have hseed₂' : r₂.seed = p₂.toNat <<< SEED_SHIFT := hseed₂
  have hsoil₂' : r₂.soil = q₂.toNat <<< SOIL_SHIFT := hsoil₂
  obtain ⟨-, -, -, -, -, -, hid₁⟩ := harvest_ok_inv hok₁
  obtain ⟨-, -, -, -, -, -, hid₂⟩ := harvest_ok_inv hok₂
  have h31 : MAX_SEED = 31 := by decide
  have h31' : MAX_SOIL = 31 := by decide
  have hmask : HARVESTED_COUNT_MASK = 4095 := by decide
  have hc₁ : r₁'.harvested_count ≤ 4095 := by
    have := hwf₁.2.2
    omega
  have hc₂ : r₂'.harvested_count ≤ 4095 := by
    have := hwf₂.2.2
    omega
  have hM₁ : id₁ = (t * 4194304 + p₁.toNat * 131072 + q₁.toNat * 4096
      + r₁'.harvested_count) % 2 ^ 64 := by
    rw [hid₁, hseed₁', hsoil₁', encode_eq_add (by omega) (by omega) (by omega)]
  have hM₂ : id₂ = (t * 4194304 + p₂.toNat * 131072 + q₂.toNat * 4096
      + r₂'.harvested_count) % 2 ^ 64 := by
    rw [hid₂, hseed₂', hsoil₂', encode_eq_add (by omega) (by omega) (by omega)]
  have hdp₁ : (id₁ >>> SEED_SHIFT) &&& MAX_SEED = p₁.toNat := by
    rw [hM₁, extract_seed]
    omega
  have hdq₁ : (id₁ >>> SOIL_SHIFT) &&& MAX_SOIL = q₁.toNat := by
    rw [hM₁, extract_soil]
    omega
  have hdp₂ : (id₂ >>> SEED_SHIFT) &&& MAX_SEED = p₂.toNat := by
    rw [hM₂, extract_seed]
    omega
  have hdq₂ : (id₂ >>> SOIL_SHIFT) &&& MAX_SOIL = q₂.toNat := by
    rw [hM₂, extract_soil]
    omega
  rw [heq] at hdp₁ hdq₁
  have hpe : p₁ = p₂ := by omega
  have hqe : q₁ = q₂ := by omega
  rw [hpe, hqe] at hne
  exact hne rfl

theorem C9_cross_identity_witness :
    Snowberry.new 30 13
        = some ⟨(30 : Int).toNat <<< SEED_SHIFT, (13 : Int).toNat <<< SOIL_SHIFT, 0, 0⟩ ∧
      Snowberry.new 29 13
        = some ⟨(29 : Int).toNat <<< SEED_SHIFT, (13 : Int).toNat <<< SOIL_SHIFT, 0, 0⟩ ∧
      ((30 : Int), (13 : Int)) ≠ ((29 : Int), (13 : Int)) ∧
      harvest_from_time ⟨(30 : Int).toNat <<< SEED_SHIFT, (13 : Int).toNat <<< SOIL_SHIFT, 0, 0⟩ 1
        = HarvestResult.ok 8179712
            ⟨(30 : Int).toNat <<< SEED_SHIFT, (13 : Int).toNat <<< SOIL_SHIFT, 0, 1⟩ ∧
      harvest_from_time ⟨(29 : Int).toNat <<< SEED_SHIFT, (13 : Int).toNat <<< SOIL_SHIFT, 0, 0⟩ 1
        = HarvestResult.ok 8048640
            ⟨(29 : Int).toNat <<< SEED_SHIFT, (13 : Int).toNat <<< SOIL_SHIFT, 0, 1⟩ ∧
      (8179712 : Nat) ≠ 8048640 :=
  ⟨by decide, by decide, by decide, by decide, by decide,
   C9_cross_identity 30 13 29 13
     ⟨(30 : Int).toNat <<< SEED_SHIFT, (13 : Int).toNat <<< SOIL_SHIFT, 0, 0⟩
     ⟨(29 : Int).toNat <<< SEED_SHIFT, (13 : Int).toNat <<< SOIL_SHIFT, 0, 0⟩
     ⟨(30 : Int).toNat <<< SEED_SHIFT, (13 : Int).toNat <<< SOIL_SHIFT, 0, 0⟩
     ⟨(29 : Int).toNat <<< SEED_SHIFT, (13 : Int).toNat <<< SOIL_SHIFT, 0, 0⟩
     ⟨(30 : Int).toNat <<< SEED_SHIFT, (13 : Int).toNat <<< SOIL_SHIFT, 0, 1⟩
     ⟨(29 : Int).toNat <<< SEED_SHIFT, (13 : Int).toNat <<< SOIL_SHIFT, 0, 1⟩
     1 8179712 8048640 (by decide) (by decide) (by decide)
     (Reaches.refl _) (Reaches.refl _) (by decide) (by decide) (by decide)⟩

theorem iterateHarvest_succ_ok {s : Snowberry} {t id : Nat} {s' : Snowberry} (n : Nat)
    (h : harvest_from_time s t = HarvestResult.ok id s') :
    iterateHarvest s t (n + 1) = iterateHarvest s' t n := by
  simp only [iterateHarvest]
  rw [h]

theorem iterate_same_ms (n : Nat) : ∀ (s : Snowberry) (T : Nat),
    s.last_harvested_at = T → s.harvested_count + n ≤ HARVESTED_COUNT_MASK →
    iterateHarvest s T n = some ⟨s.seed, s.soil, s.harvested_count + n, T⟩ := by
  induction n with
  | zero =>
    intro s T hlast hc
    obtain ⟨a, b, c, d⟩ := s
    simp only at hlast
    simp [iterateHarvest, hlast]
  | succ n ih =>
    intro s T hlast hc
    have hmask : HARVESTED_COUNT_MASK = 4095 := by decide
    have hne : (s.harvested_count + 1) &&& HARVESTED_COUNT_MASK ≠ 0 := by
      rw [and_mask_eq_mod]
      omega
    have hstep := harvest_same_ms hlast.symm hne
    have hc1 : (s.harvested_count + 1) &&& HARVESTED_COUNT_MASK = s.harvested_count + 1 := by
      rw [and_mask_eq_mod]
      omega
    rw [hc1] at hstep
    rw [iterateHarvest_succ_ok n hstep]
    have hrec := ih { s with harvested_count := s.harvested_count + 1, last_harvested_at := T }
      T rfl ((by omega : s.harvested_count + 1 + n ≤ HARVESTED_COUNT_MASK))
    rw [hrec]
    simp only [Option.some.injEq, Snowberry.mk.injEq, and_true, true_and]
    omega

/-- C2: from a freshly constructed generator, for any timestamp `T > 0`,
the first `2 ^ C` explicit-timestamp mints at `T` all return `Ok`, and the
`(2 ^ C + 1)`-th call at the same `T` returns the `SequenceExhausted`
error (`"snowberry has harvested all"`). -/
theorem C2_exhaustion_boundary (p q : Int) (s₀ : Snowberry) (T : Nat)
    (hnew : Snowberry.new p q = some s₀) (hT : 0 < T) :
    ∃ s', iterateHarvest s₀ T (2 ^ HARVESTED_COUNT_BITS) = some s' ∧
      harvest_from_time s' T
        = HarvestResult.err "snowberry has harvested all"
            { s' with harvested_count := 0 } := by
  obtain ⟨-, -, -, -, rfl⟩ := new_some_inv hnew
  refine ⟨⟨p.toNat <<< SEED_SHIFT, q.toNat <<< SOIL_SHIFT, 4095, T⟩, ?_, ?_⟩
  · have h1 := harvest_fresh_ms
      (s := ⟨p.toNat <<< SEED_SHIFT, q.toNat <<< SOIL_SHIFT, 0, 0⟩) (t := T)
      (show (0 : Nat) < T from hT)
    rw [(by decide : (2 : Nat) ^ HARVESTED_COUNT_BITS = 4095 + 1),
      iterateHarvest_succ_ok 4095 h1]
    have hrec := iterate_same_ms 4095
      ⟨p.toNat <<< SEED_SHIFT, q.toNat <<< SOIL_SHIFT, 0, T⟩ T rfl
      ((by decide : (0 : Nat) + 4095 ≤ HARVESTED_COUNT_MASK))
    rw [hrec]
  · exact harvest_exhausted rfl
      (show ((4095 : Nat) + 1) &&& HARVESTED_COUNT_MASK = 0 by decide)

theorem C2_exhaustion_boundary_witness :
    Snowberry.new 0 0 = some ⟨0, 0, 0, 0⟩ ∧ (0 : Nat) < 1 ∧
      ∃ s', iterateHarvest ⟨0, 0, 0, 0⟩ 1 (2 ^ HARVESTED_COUNT_BITS) = some s' ∧
        harvest_from_time s' 1
          = HarvestResult.err "snowberry has harvested all"
              { s' with harvested_count := 0 } :=
  ⟨by decide, by decide, C2_exhaustion_boundary 0 0 ⟨0, 0, 0, 0⟩ 1 (by decide) (by decide)⟩

theorem runOk_cons_inv {s : Snowberry} {t : Nat} {ts : List Nat} {sf : Snowberry}
    {ids : List Nat} (h : runOk s (t :: ts) = some (sf, ids)) :
    ∃ id s' ids', harvest_from_time s t = HarvestResult.ok id s' ∧
      runOk s' ts = some (sf, ids') ∧ ids = id :: ids' := by
  simp only [runOk] at h
  split at h
  · rename_i id s' heq
    rw [Option.map_eq_some'] at h
    obtain ⟨⟨sf', ids'⟩, hr, hfa⟩ := h
    simp only [Prod.mk.injEq] at hfa
    exact ⟨id, s', ids', heq, by rw [hr, hfa.1], hfa.2.symm⟩
  · exact absurd h (by simp)

theorem harvest_ok_mono {s : Snowberry} {t id : Nat} {s' : Snowberry}
    (hok : harvest_from_time s t = HarvestResult.ok id s') (hwf : WF s)
    (hlastb : s.last_harvested_at < 4398046511104) (htb : t < 4398046511104) :
    lastId s < id ∧ id = lastId s' ∧ s'.last_harvested_at = t := by
  have hwf' := wf_step_ok hwf hok
  obtain ⟨⟨pp, hpp, hseed⟩, ⟨qq, hqq, hsoil⟩, hcnt⟩ := hwf
  have hcnt' := hwf'.2.2
  obtain ⟨hs1, hs2, hs3, hs4, hs5, hs6, hid⟩ := harvest_ok_inv hok
  have hmask : HARVESTED_COUNT_MASK = 4095 := by decide
  have h31 : MAX_SEED = 31 := by decide
  have h31' : MAX_SOIL = 31 := by decide
  have h64 : (2 : Nat) ^ 64 = 18446744073709551616 := by norm_num
  have e₁ : lastId s = s.last_harvested_at * 4194304 + pp * 131072 + qq * 4096
      + s.harvested_count := by
    unfold lastId
    rw [hseed, hsoil, encode_eq_add hpp hqq hcnt, Nat.mod_eq_of_lt (by omega)]
  have e₂ : lastId s' = t * 4194304 + pp * 131072 + qq * 4096 + s'.harvested_count := by
    unfold lastId
    rw [hs1, hs2, hs3, hseed, hsoil, encode_eq_add hpp hqq hcnt',
      Nat.mod_eq_of_lt (by omega)]
  have e₃ : id = t * 4194304 + pp * 131072 + qq * 4096 + s'.harvested_count := by
    rw [hid, hseed, hsoil, encode_eq_add hpp hqq hcnt', Nat.mod_eq_of_lt (by omega)]
  refine ⟨?_, by rw [e₃, e₂], hs3⟩
  by_cases hts : t = s.last_harvested_at
  · rw [if_pos hts] at hs5
    have hnz := hs6 hts
    rw [and_mask_eq_mod] at hs5 hnz
    omega
  · rw [if_neg hts] at hs5
    omega

theorem runOk_chain (ts : List Nat) : ∀ (s sf : Snowberry) (ids : List Nat),
    WF s → s.last_harvested_at < 4398046511104 →
    List.Chain' (· ≤ ·) ts → (∀ t ∈ ts, t < 4398046511104) →
    (∀ t ∈ ts.head?, s.last_harvested_at ≤ t) →
    runOk s ts = some (sf, ids) →
    List.Chain (· < ·) (lastId s) ids := by
  induction ts with
  | nil =>
    intro s sf ids _ _ _ _ _ hrun
    simp only [runOk, Option.some.injEq, Prod.mk.injEq] at hrun
    rw [← hrun.2]
    exact List.Chain.nil
  | cons t rest ih =>
    intro s sf ids hwf hlastb hchain hbound hhead hrun
    obtain ⟨id, s', ids', hok, hrun', rfl⟩ := runOk_cons_inv hrun
    have htb : t < 4398046511104 := hbound t (by simp)
    have hle : s.last_harvested_at ≤ t := hhead t (by simp)
    obtain ⟨hlt, hideq, hlast'⟩ := harvest_ok_mono hok hwf hlastb htb
    refine List.Chain.cons hlt ?_
    rw [hideq]
    refine ih s' sf ids' (wf_step_ok hwf hok) (by omega) hchain.tail
      (fun u hu => hbound u (by simp [hu])) ?_ hrun'
    intro u hu
    rw [hlast']
    cases rest with
    | nil => simp at hu
    | cons r rs =>
      simp at hu
      subst hu
      exact (List.chain'_cons.mp hchain).1

/-- C4: from a freshly constructed generator, a sequence of
explicit-timestamp mints with non-decreasing timestamps in which every
call returns `Ok` yields strictly increasing 64-bit IDs, provided every
timestamp fits in the `64 - P - S - C`-bit timestamp field. -/
theorem C4_strict_monotonicity (p q : Int) (s₀ sf : Snowberry) (ts ids : List Nat)
    (hnew : Snowberry.new p q = some s₀)
    (hsort : List.Chain' (· ≤ ·) ts)
    (hbound : ∀ t ∈ ts, t < 2 ^ (64 - SEED_BITS - SOIL_BITS - HARVESTED_COUNT_BITS))
    (hrun : runOk s₀ ts = some (sf, ids)) :
    List.Pairwise (· < ·) ids := by
  have hb : ∀ t ∈ ts, t < 4398046511104 := by
    intro t ht
    have h1 := hbound t ht
    have he : (2 : Nat) ^ (64 - SEED_BITS - SOIL_BITS - HARVESTED_COUNT_BITS)
        = 4398046511104 := by decide
    omega
  have hwf0 := wf_new hnew
  obtain ⟨-, -, -, -, rfl⟩ := new_some_inv hnew
  have hlast0 : (Snowberry.mk (p.toNat <<< SEED_SHIFT) (q.toNat <<< SOIL_SHIFT) 0
      0).last_harvested_at < 4398046511104 := by
    show (0 : Nat) < 4398046511104
    decide
  have hchain := runOk_chain ts _ sf ids hwf0 hlast0 hsort hb
    (fun t _ => Nat.zero_le t) hrun
  exact (List.pairwise_cons.mp (List.chain_iff_pairwise.mp hchain)).2

theorem C4_strict_monotonicity_witness :
    Snowberry.new 30 13
        = some ⟨(30 : Int).toNat <<< SEED_SHIFT, (13 : Int).toNat <<< SOIL_SHIFT, 0, 0⟩ ∧
      List.Chain' (· ≤ ·) [5, 5, 7] ∧
      (∀ t ∈ [5, 5, 7], t < 2 ^ (64 - SEED_BITS - SOIL_BITS - HARVESTED_COUNT_BITS)) ∧
      runOk ⟨(30 : Int).toNat <<< SEED_SHIFT, (13 : Int).toNat <<< SOIL_SHIFT, 0, 0⟩ [5, 5, 7]
        = some (⟨(30 : Int).toNat <<< SEED_SHIFT, (13 : Int).toNat <<< SOIL_SHIFT, 0, 7⟩,
            [24956928, 24956929, 33345536]) ∧
      List.Pairwise (· < ·) [24956928, 24956929, 33345536] :=
  ⟨by decide, by norm_num [List.chain'_cons, List.chain'_singleton], by decide, by decide,
   C4_strict_monotonicity 30 13
     ⟨(30 : Int).toNat <<< SEED_SHIFT, (13 : Int).toNat <<< SOIL_SHIFT, 0, 0⟩
     ⟨(30 : Int).toNat <<< SEED_SHIFT, (13 : Int).toNat <<< SOIL_SHIFT, 0, 7⟩
     [5, 5, 7] [24956928, 24956929, 33345536]
     (by decide) (by norm_num [List.chain'_cons, List.chain'_singleton])
     (by decide) (by decide)⟩

theorem harvest_ok_count_field {s : Snowberry} {t id : Nat} {s' : Snowberry}
    (hok : harvest_from_time s t = HarvestResult.ok id s') (hwf : WF s) :
    id &&& HARVESTED_COUNT_MASK = s'.harvested_count ∧
      s'.harvested_count < 2 ^ HARVESTED_COUNT_BITS := by
  have hwf' := wf_step_ok hwf hok
  obtain ⟨⟨pp, hpp, hseed⟩, ⟨qq, hqq, hsoil⟩, -⟩ := hwf
  have hcnt' := hwf'.2.2
  obtain ⟨-, -, -, -, -, -, hid⟩ := harvest_ok_inv hok
  have hmask : HARVESTED_COUNT_MASK = 4095 := by decide
  have h31 : MAX_SEED = 31 := by decide
  have h31' : MAX_SOIL = 31 := by decide
  have hpow : (2 : Nat) ^ HARVESTED_COUNT_BITS = 4096 := by decide
  constructor
  · rw [hid, hseed, hsoil, encode_eq_add hpp hqq hcnt', extract_count]
    omega
  · omega

theorem harvest_ok_same_count {s : Snowberry} {t id : Nat} {s' : Snowberry}
    (hok : harvest_from_time s t = HarvestResult.ok id s')
    (hts : t = s.last_harvested_at)
    (hcnt : s.harvested_count ≤ HARVESTED_COUNT_MASK) :
    s'.harvested_count = s.harvested_count + 1 := by
  obtain ⟨-, -, -, -, hs5, hs6, -⟩ := harvest_ok_inv hok
  rw [if_pos hts] at hs5
  have hnz := hs6 hts
  rw [and_mask_eq_mod] at hs5 hnz
  have hmask : HARVESTED_COUNT_MASK = 4095 := by decide
  omega

theorem run_same_counts (n : Nat) : ∀ (s sf : Snowberry) (ids : List Nat) (T : Nat),
    WF s → s.last_harvested_at = T →
    runOk s (List.replicate n T) = some (sf, ids) →
    List.Chain (· < ·) s.harvested_count (ids.map (· &&& HARVESTED_COUNT_MASK)) := by
  induction n with
  | zero =>
    intro s sf ids T hwf hlast hrun
    simp only [List.replicate, runOk, Option.some.injEq, Prod.mk.injEq] at hrun
    rw [← hrun.2]
    exact List.Chain.nil
  | succ n ih =>
    intro s sf ids T hwf hlast hrun
    rw [List.replicate_succ] at hrun
    obtain ⟨id, s', ids', hok, hrun', rfl⟩ := runOk_cons_inv hrun
    obtain ⟨hcf, -⟩ := harvest_ok_count_field hok hwf
    have hinc := harvest_ok_same_count hok hlast.symm hwf.2.2
    obtain ⟨-, -, hs3, -, -, -, -⟩ := harvest_ok_inv hok
    simp only [List.map_cons]
    refine List.Chain.cons ?_ ?_
    · rw [hcf, hinc]
      omega
    · have hrec := ih s' sf ids' T (wf_step_ok hwf hok) hs3 hrun'
      rw [hcf]
      exact hrec

/-- C3 (amended): for a constructed generator and a fixed timestamp `T`,
(1) every ID ever successfully minted at `T` (from any reachable state)
lies in one fixed set of at most `2 ^ C` values, so at most `2 ^ C`
distinct IDs are ever minted at `T`; and (2) along any run of consecutive
`Ok` mints at `T` — i.e. as long as the caller stops at the first
`SequenceExhausted` — all returned IDs are pairwise distinct.  (The
original claim's stronger guarantee, that continuing to call at `T` after
a `SequenceExhausted` error never duplicates earlier IDs, is refuted by
the counterexample.) -/
theorem C3_amended_bounded (p q : Int) (s₀ : Snowberry) (T : Nat)
    (hnew : Snowberry.new p q = some s₀) :
    (∀ s s' id, Reaches s₀ s → harvest_from_time s T = HarvestResult.ok id s' →
        id ∈ (Finset.range (2 ^ HARVESTED_COUNT_BITS)).image
          (fun c => ((T <<< UNIX_TIME_SHIFT) ||| (p.toNat <<< SEED_SHIFT)
            ||| (q.toNat <<< SOIL_SHIFT) ||| c) % 2 ^ 64)) ∧
      ((Finset.range (2 ^ HARVESTED_COUNT_BITS)).image
          (fun c => ((T <<< UNIX_TIME_SHIFT) ||| (p.toNat <<< SEED_SHIFT)
            ||| (q.toNat <<< SOIL_SHIFT) ||| c) % 2 ^ 64)).card
        ≤ 2 ^ HARVESTED_COUNT_BITS ∧
      (∀ (n : Nat) (s sf : Snowberry) (ids : List Nat), Reaches s₀ s →
        runOk s (List.replicate n T) = some (sf, ids) →
        List.Pairwise (· ≠ ·) ids) := by
  have hwf₀ := wf_new hnew
  obtain ⟨-, -, -, -, rfl⟩ := new_some_inv hnew
  refine ⟨?_, ?_, ?_⟩
  · intro s s' id hre hok
    have hwf := Reaches.wf hre hwf₀
    obtain ⟨hseedeq, hsoileq⟩ := Reaches.seed_soil hre
    have hseed' : s.seed = p.toNat <<< SEED_SHIFT := hseedeq
    have hsoil' : s.soil = q.toNat <<< SOIL_SHIFT := hsoileq
    obtain ⟨-, -, -, -, -, -, hid⟩ := harvest_ok_inv hok
    obtain ⟨-, hlt⟩ := harvest_ok_count_field hok hwf
    rw [Finset.mem_image]
    exact ⟨s'.harvested_count, Finset.mem_range.mpr hlt, by rw [hid, hseed', hsoil']⟩
  · have hcard := Finset.card_image_le (s := Finset.range (2 ^ HARVESTED_COUNT_BITS))
      (f := fun c => ((T <<< UNIX_TIME_SHIFT) ||| (p.toNat <<< SEED_SHIFT)
        ||| (q.toNat <<< SOIL_SHIFT) ||| c) % 2 ^ 64)
    rw [Finset.card_range] at hcard
    exact hcard
  · intro n s sf ids hre hrun
    have hwf := Reaches.wf hre hwf₀
    cases n with
    | zero =>
      simp only [List.replicate, runOk, Option.some.injEq, Prod.mk.injEq] at hrun
      rw [← hrun.2]
      exact List.Pairwise.nil
    | succ n =>
      rw [List.replicate_succ] at hrun
      obtain ⟨id, s', ids', hok, hrun', rfl⟩ := runOk_cons_inv hrun
      obtain ⟨-, -, hs3, -, -, -, -⟩ := harvest_ok_inv hok
      obtain ⟨hcf, -⟩ := harvest_ok_count_field hok hwf
      have hchain' := run_same_counts n s' sf ids' T (wf_step_ok hwf hok) hs3 hrun'
      have hch : List.Chain' (· < ·) ((id :: ids').map (· &&& HARVESTED_COUNT_MASK)) := by
        simp only [List.map_cons]
        show List.Chain (· < ·) (id &&& HARVESTED_COUNT_MASK)
          (ids'.map (· &&& HARVESTED_COUNT_MASK))
        rw [hcf]
        exact hchain'
      have hpw := List.chain'_iff_pairwise.mp hch
      rw [List.pairwise_map] at hpw
      exact hpw.imp fun hab he => by
        subst he
        exact lt_irrefl _ hab

theorem C3_amended_bounded_witness :
    Snowberry.new 0 0 = some ⟨0, 0, 0, 0⟩ ∧
      harvest_from_time ⟨0, 0, 0, 1⟩ 1 = HarvestResult.ok 4194305 ⟨0, 0, 1, 1⟩ ∧
      4194305 ∈ (Finset.range (2 ^ HARVESTED_COUNT_BITS)).image
        (fun c => ((1 <<< UNIX_TIME_SHIFT) ||| ((0 : Int).toNat <<< SEED_SHIFT)
          ||| ((0 : Int).toNat <<< SOIL_SHIFT) ||| c) % 2 ^ 64) :=
  ⟨by decide, by decide,
   (C3_amended_bounded 0 0 ⟨0, 0, 0, 0⟩ 1 (by decide)).1 ⟨0, 0, 0, 1⟩ ⟨0, 0, 1, 1⟩ 4194305
     (Reaches.ok (Reaches.refl _)
       (by decide : harvest_from_time ⟨0, 0, 0, 0⟩ 1
          = HarvestResult.ok 4194304 ⟨0, 0, 0, 1⟩))
     (by decide)⟩

/-- C3 counterexample: one concrete run of a single generator at the fixed
timestamp `T = 1` re-issues an already-issued ID.  From `new(0, 0)`:
call 1 is `Ok` (reaching state `⟨0,0,0,1⟩`), call 2 is `Ok` with ID
`4194305` (sequence 1), calls 3..4096 are `Ok` (driving the counter to
4095), call 4097 is the `SequenceExhausted` error — which resets the
wrapped counter to 0 while staying in the same millisecond — and call
4098, still at `T = 1`, is `Ok` and returns the same ID `4194305`
(sequence 1) again, duplicating call 2's ID. -/
theorem C3_counterexample :
    Snowberry.new 0 0 = some ⟨0, 0, 0, 0⟩ ∧
      iterateHarvest ⟨0, 0, 0, 0⟩ 1 1 = some ⟨0, 0, 0, 1⟩ ∧
      harvest_from_time ⟨0, 0, 0, 1⟩ 1 = HarvestResult.ok 4194305 ⟨0, 0, 1, 1⟩ ∧
      iterateHarvest ⟨0, 0, 1, 1⟩ 1 4094 = some ⟨0, 0, 4095, 1⟩ ∧
      harvest_from_time ⟨0, 0, 4095, 1⟩ 1
        = HarvestResult.err "snowberry has harvested all" ⟨0, 0, 0, 1⟩ ∧
      harvest_from_time ⟨0, 0, 0, 1⟩ 1 = HarvestResult.ok 4194305 ⟨0, 0, 1, 1⟩ := by
  refine ⟨by decide, by decide, by decide, ?_, by decide, by decide⟩
  exact iterate_same_ms 4094 ⟨0, 0, 1, 1⟩ 1 rfl (by decide)
